import Mathlib

/-!
Verification of the business-service client (`src/services/business_service/mod.rs`)
of the google-rs-sdk repository: the token-chained page walk
(`get_locations` / `get_locations_details`), the concurrent fan-out
aggregator (`admins`), the accounts listing (`accounts`) and the transport
helpers (`request` / `resource_request` / `update_request`).

The embedding is shallow: JSON bodies are a small inductive type, each
fallible Rust computation returns a `RustResult` that distinguishes a
returned `Err` (propagated by `?`) from an `unwrap`/`expect` panic, and the
outcomes of the outside world (URL builder, HTTP client construction,
header construction, the network) are an explicit environment record passed
to each request.
-/

/-- A JSON value, as `serde_json::Value` is used by the client code. -/
inductive Json where
  | null
  | bool (b : Bool)
  | num (n : Int)
  | str (s : String)
  | arr (elems : List Json)
  | obj (fields : List (String × Json))

/-- `serde_json::Value::get(key)`: field lookup on an object, `None` on any
other value or a missing key. -/
def Json.get : Json → String → Option Json
  | .obj fields, key => List.lookup key fields
  | _, _ => none

/-- `serde_json::Value::as_str()`. -/
def Json.asStr : Json → Option String
  | .str s => some s
  | _ => none

/-- `serde_json::Value::as_array()`. -/
def Json.asArray : Json → Option (List Json)
  | .arr elems => some elems
  | _ => none

/-- The observable outcome of a fallible Rust computation: an `Ok` value, a
returned `Err` (what `?` propagates and callers can match on), a
`panic` raised by `unwrap`/`expect` (no value is returned to the caller),
or — for the page-walk only — the loop still running after every
modelled server response has been consumed. -/
inductive RustResult (α : Type) where
  | ok (a : α)
  | err (e : String)
  | panicked (msg : String)
  | pending
deriving DecidableEq, Repr

/-- Whether a `RustResult` is a returned `Err` value (as opposed to an `Ok`,
a panic, or a still-running loop). -/
def RustResult.isError {α : Type} : RustResult α → Bool
  | .err _ => true
  | _ => false

/-- The `Ok` payload, when there is one. -/
def RustResult.toOk {α : Type} : RustResult α → Option α
  | .ok a => some a
  | _ => none

/-- Modelled from the spec: the `Location` domain shape.  The file
`src/services/business_service/locations.rs` is not among the repository's
files; the spec lists location records among the typed shapes used only at
(de)serialization boundaries, and `mod.rs` reads the fields `name`, `title`
and `store_code` of a location. -/
structure Location where
  name : String
  title : String
  store_code : String
deriving DecidableEq, Repr

/-- Modelled from the spec: `serde_json::from_value::<Location>`, requiring
the three modelled fields as JSON strings (camelCase wire names, as the
domain shapes in `accounts.rs` rename their fields). -/
def locationFromJson (j : Json) : Option Location :=
  match j.get "name", j.get "title", j.get "storeCode" with
  | some (.str n), some (.str t), some (.str s) => some ⟨n, t, s⟩
  | _, _, _ => none

/-- The element-wise deserialisation `.map(|v| from_value(v).unwrap())` of a
page's items: `none` models the panic on the first malformed element. -/
def mapLocations : List Json → Option (List Location)
  | [] => some []
  | v :: vs =>
    match locationFromJson v, mapLocations vs with
    | some l, some ls => some (l :: ls)
    | _, _ => none

/-- The `locations` field of the `Locations` collection struct that
`get_locations` accumulates into (`Locations::default()` then
`locations.locations.extend(pages)`). -/
structure Locations where
  locations : List Location
deriving DecidableEq, Repr

/-- An HTTP response as this client observes it: a status code and a body
(already decoded; `response.json()` hands the body to the caller). -/
structure Response where
  status : Nat
  body : Json

/-- The outcomes of the external collaborators consumed by one request:
`built_url` is the result of `EndPoint::build` (`none` = builder failure,
hit by `.expect`); `client_ok` is `reqwest::Client::builder().build()`
(`false` = `Err`, propagated by `?`); `header_ok` is
`HeaderValue::from_str` on the bearer header (`false` = failure, hit by
`.unwrap()`); `send_result` is the network outcome of `.send()` (`none` =
failure, hit by `.expect`). -/
structure TransportEnv where
  built_url : Option String
  client_ok : Bool
  header_ok : Bool
  send_result : Option Response

/-- The common tail of the three transport functions (client construction,
header construction, `.send()`), parametrised by the `.expect` message of
the send and returning the URL the request was issued to alongside the
response (the URL is the model's observation of where the request went). -/
def sendTo (msg : String) (env : TransportEnv) (url : String) :
    RustResult (String × Response) :=
  if env.client_ok = false then .err "builder error"
  else if env.header_ok = false then .panicked "invalid header value"
  else
    match env.send_result with
    | none => .panicked msg
    | some res => .ok (url, res)

/-- `BusinessService::request` (mod.rs lines 90–106): build the endpoint URL
(`.expect` on builder failure), build the client (`?`), attach the bearer
header (`.unwrap`), send (`.expect`), and return the response unconditionally
— the status code is not inspected. -/
def request (env : TransportEnv) : RustResult (String × Response) :=
  match env.built_url with
  | none => .panicked "could not build accounts url"
  | some url => sendTo "Error with request" env url

/-- `BusinessService::resource_request` (mod.rs lines 107–130): like
`request`, but when a continuation token is supplied the URL gets
`&pageToken=<token>` appended, via `token.as_str().unwrap()` — a panic when
the token is present but not a JSON string.  The push happens before the
client is built, as in the source. -/
def resource_request (env : TransportEnv) (next_page_token : Option Json) :
    RustResult (String × Response) :=
  match env.built_url with
  | none => .panicked "could not build accounts url"
  | some url =>
    match next_page_token with
    | none => sendTo "Error with request" env url
    | some token =>
      match token.asStr with
      | none => .panicked "token as_str unwrap on non-string token"
      | some s => sendTo "Error with request" env (url ++ "&pageToken=" ++ s)

/-- `BusinessService::update_request` (mod.rs lines 132–149): build the URL
(`.expect`), append the fixed query string `?updateMask=title`, then PATCH
the serialised payload.  The payload travels in the body and does not
affect the URL. -/
def update_request (env : TransportEnv) (_payload : Location) :
    RustResult (String × Response) :=
  match env.built_url with
  | none => .panicked "could not build accounts url"
  | some url => sendTo "Error with patch request" env (url ++ "?updateMask=title")

/-- One iteration step's page extraction: the `locations` field of the body,
as an array, each element deserialised — exactly the chain
`resp.get("locations").unwrap().as_array().unwrap()` followed by the
per-element `from_value(..).unwrap()`, with `none` marking the panic. -/
def pageItems (body : Json) : Option (List Location) :=
  ((body.get "locations").bind Json.asArray).bind mapLocations

/-- The page-walk loop shared by `get_locations` (mod.rs lines 161–185) and
`get_locations_details` (lines 204–234).  `rounds` lists, in order, the
external conditions of each successive `resource_request` the loop issues;
the result is `pending` when the loop is still running after the modelled
rounds run out.  On success it returns the accumulated locations together
with the URLs of the requests issued, in order. -/
def locationsLoop (rounds : List TransportEnv) (next_page_token : Option Json)
    (acc : List Location) (urls : List String) :
    RustResult (Locations × List String) :=
  match rounds with
  | [] => .pending
  | env :: rest =>
    match resource_request env next_page_token with
    | .err e => .err e
    | .panicked m => .panicked m
    | .pending => .pending
    | .ok (url, response) =>
      match (response.body).get "locations" with
      | none => .panicked "unwrap on missing locations field"
      | some v =>
        match v.asArray with
        | none => .panicked "as_array unwrap on non-array locations field"
        | some val_pages =>
          match mapLocations val_pages with
          | none => .panicked "from_value unwrap on malformed location"
          | some pages =>
            match (response.body).get "nextPageToken" with
            | none => .ok (⟨acc ++ pages⟩, urls ++ [url])
            | some t => locationsLoop rest (some t) (acc ++ pages) (urls ++ [url])

/-- `BusinessService::get_locations` (mod.rs lines 161–185): start from
`Locations::default()` and no token, loop until a response carries no
`nextPageToken`. -/
def get_locations (rounds : List TransportEnv) : RustResult (Locations × List String) :=
  locationsLoop rounds none [] []

/-- `BusinessService::get_locations_details` (mod.rs lines 204–234): joins
the read mask with commas (the joined mask only feeds the opaque endpoint
builder, i.e. `built_url` of each round) and then runs the identical
page-walk loop. -/
def get_locations_details (read_mask : List String) (rounds : List TransportEnv) :
    RustResult (Locations × List String) :=
  let _read_mask_joined := String.intercalate "," read_mask
  locationsLoop rounds none [] []

/-- The transport environment of one round in which every external
collaborator succeeds: the endpoint builder yields `base`, client and
header construction succeed, and the network returns status 200 with the
given body. -/
def cleanEnv (base : String) (body : Json) : TransportEnv :=
  { built_url := some base, client_ok := true, header_ok := true,
    send_result := some { status := 200, body := body } }

/-- The continuation token of a response body, as the string the client
would append: `resp.get("nextPageToken")` then `as_str`. -/
def tokenOf (body : Json) : Option String :=
  (body.get "nextPageToken").bind Json.asStr

/-- A finite token chain: every response before the last carries a
string-valued `nextPageToken`, and the last carries none.  The empty list
is not a chain (the loop always issues at least one request). -/
def tokenChain : List Json → Bool
  | [] => false
  | [body] => (body.get "nextPageToken").isNone
  | body :: rest =>
    (match body.get "nextPageToken" with
     | some t => t.asStr.isSome
     | none => false) && tokenChain rest

/-- Every listed response carries a string-valued `nextPageToken` (so the
loop would never break out of any of them). -/
def allHaveTokens : List Json → Bool
  | [] => true
  | body :: rest =>
    (match body.get "nextPageToken" with
     | some t => t.asStr.isSome
     | none => false) && allHaveTokens rest

/-- Every listed response has a well-formed items page (a `locations` array
whose elements all deserialise). -/
def pagesParse : List Json → Bool
  | [] => true
  | body :: rest => (pageItems body).isSome && pagesParse rest

/-- Whether a pending continuation token is absent or a JSON string —
i.e. the next `resource_request` will not hit the `as_str` unwrap. -/
def tokOk : Option Json → Bool
  | none => true
  | some t => t.asStr.isSome

/-- The items of a response list, concatenated in page order and, within a
page, in response order. -/
def chainItems : List Json → List Location
  | [] => []
  | body :: rest => (pageItems body).getD [] ++ chainItems rest

/-- The URL a `resource_request` is issued to, given the pending string
token: the bare resource URL for the first request, the resource URL with
`&pageToken=<token>` appended afterwards. -/
def urlFor (base : String) : Option String → String
  | none => base
  | some s => base ++ "&pageToken=" ++ s

/-- The URLs the page walk issues over a response list, given the token
pending before the first of them: the first URL carries the pending token
(or none), and each later URL carries the token of the response before it. -/
def chainUrls (base : String) : Option String → List Json → List String
  | _, [] => []
  | tok, body :: rest => urlFor base tok :: chainUrls base (tokenOf body) rest

/-- The string continuation tokens of every response but the last. -/
def initTokens : List Json → List String
  | [] => []
  | [_] => []
  | body :: rest => (tokenOf body).getD "" :: initTokens rest

/-- A location body as the wire sends it (used by the concrete scenarios). -/
def locJson (nm ti sc : String) : Json :=
  .obj [("name", .str nm), ("title", .str ti), ("storeCode", .str sc)]

/-- First page of the spec's two-page scenario: two items and the
continuation token `t1`. -/
def pageOne : Json :=
  .obj [("locations", .arr [locJson "locations/1" "A" "s1",
                            locJson "locations/2" "B" "s2"]),
        ("nextPageToken", .str "t1")]

/-- Second page of the spec's two-page scenario: one item, no token. -/
def pageTwo : Json :=
  .obj [("locations", .arr [locJson "locations/3" "C" "s3"])]

/-- A response body with no `locations` field at all. -/
def noItemsBody : Json :=
  .obj [("foo", .str "bar")]

/-- `Admin` (accounts.rs lines 36–42): one admin record, four required
string fields. -/
structure Admin where
  account : String
  admin : String
  name : String
  role : String
deriving DecidableEq, Repr

/-- `Admins` (accounts.rs lines 32–35): the body shape of an admin-list
response. -/
structure Admins where
  admins : List Admin
deriving DecidableEq, Repr

/-- `PageAdmins` (accounts.rs lines 23–30): a location's identifying fields
merged with its admin count.  (`mod.rs` line 247 also writes an `admins`
field that the struct declaration in accounts.rs does not have; the model
follows the declared struct.) -/
structure PageAdmins where
  page_name : String
  page_title : String
  store_code : String
  admin_count : Nat
deriving DecidableEq, Repr

/-- `serde` deserialisation of one `Admin`: all four fields required as
strings. -/
def adminFromJson (j : Json) : Option Admin :=
  match j.get "account", j.get "admin", j.get "name", j.get "role" with
  | some (.str a), some (.str b), some (.str n), some (.str r) =>
    some ⟨a, b, n, r⟩
  | _, _, _, _ => none

/-- Element-wise deserialisation of an admin array, failing on the first
malformed element. -/
def adminListFromJson : List Json → Option (List Admin)
  | [] => some []
  | v :: vs =>
    match adminFromJson v, adminListFromJson vs with
    | some a, some rest => some (a :: rest)
    | _, _ => none

/-- `serde` deserialisation of `Admins`: requires the `admins` field to be
an array of well-formed admin records (a missing or non-array field is a
deserialisation error, not an empty list). -/
def adminsFromJson (j : Json) : Option Admins :=
  match j.get "admins" with
  | some (.arr elems) => (adminListFromJson elems).map Admins.mk
  | _ => none

/-- `BusinessService::admin` (mod.rs lines 236–249): one sub-query — issue
the admin-list request for a location (`?` on transport error, `?` on
deserialisation error) and merge the location's identifying fields with the
admin count. -/
def admin (env : TransportEnv) (location : Location) : RustResult PageAdmins :=
  match request env with
  | .err e => .err e
  | .panicked m => .panicked m
  | .pending => .pending
  | .ok (_u, response) =>
    match adminsFromJson response.body with
    | none => .err "error decoding response body"
    | some resp =>
      .ok { page_name := location.name, page_title := location.title,
            store_code := location.store_code,
            admin_count := resp.admins.length }

/-- The drain loop of `BusinessService::admins` (mod.rs lines 260–265):
consume sub-query outcomes in completion order, pushing each success and
returning the first `Err` immediately — the outcomes after it are never
examined. -/
def collectAdmins : List (RustResult PageAdmins) → RustResult (List PageAdmins)
  | [] => .ok []
  | r :: rest =>
    match r with
    | .ok a =>
      match collectAdmins rest with
      | .ok results => .ok (a :: results)
      | .err e => .err e
      | .panicked m => .panicked m
      | .pending => .pending
    | .err e => .err e
    | .panicked m => .panicked m
    | .pending => .pending

/-- `BusinessService::admins` (mod.rs lines 251–268): one `admin` sub-query
per location pushed into a `FuturesUnordered`, drained in completion order.
`completion` lists the sub-queries (each location with its request's
external conditions) in the order the scheduler completes them — any
permutation of the list the caller supplied. -/
def admins (completion : List (TransportEnv × Location)) :
    RustResult (List PageAdmins) :=
  collectAdmins (completion.map (fun p => admin p.1 p.2))

/-- `Account` (accounts.rs lines 3–15): five required string fields (with
camelCase wire names, `type` renamed to `the_type`) and three optional
ones. -/
structure Account where
  account_name : String
  name : String
  the_type : String
  verification_state : String
  vetted_state : String
  account_number : Option String
  permission_level : Option String
  role : Option String
deriving DecidableEq, Repr

/-- `Accounts` (accounts.rs lines 17–21): the accounts-listing body shape. -/
structure Accounts where
  accounts : List Account
deriving DecidableEq, Repr

/-- `serde` on an `Option<String>` field: absent or `null` is `None`, a
string is `Some`, anything else is a deserialisation error. -/
def optStrField (j : Json) (key : String) : Option (Option String) :=
  match j.get key with
  | none => some none
  | some .null => some none
  | some (.str s) => some (some s)
  | some _ => none

/-- `serde` deserialisation of one `Account`. -/
def accountFromJson (j : Json) : Option Account :=
  match j.get "accountName", j.get "name", j.get "type",
        j.get "verificationState", j.get "vettedState" with
  | some (.str an), some (.str n), some (.str ty), some (.str vs),
    some (.str vt) =>
    match optStrField j "accountNumber", optStrField j "permissionLevel",
          optStrField j "role" with
    | some num, some pl, some r => some ⟨an, n, ty, vs, vt, num, pl, r⟩
    | _, _, _ => none
  | _, _, _, _, _ => none

/-- Element-wise deserialisation of the accounts array. -/
def accountListFromJson : List Json → Option (List Account)
  | [] => some []
  | v :: vs =>
    match accountFromJson v, accountListFromJson vs with
    | some a, some rest => some (a :: rest)
    | _, _ => none

/-- `serde` deserialisation of `Accounts`: requires the `accounts` field to
be an array of well-formed account records. -/
def accountsFromJson (j : Json) : Option Accounts :=
  match j.get "accounts" with
  | some (.arr elems) => (accountListFromJson elems).map Accounts.mk
  | _ => none

/-- `BusinessService::accounts` (mod.rs lines 150–157): issue the accounts
request, deserialise (`?` on either failure), and turn a zero-length
accounts array into the application-level error
`"no accounts, something went wrong!"`. -/
def accounts (env : TransportEnv) : RustResult Accounts :=
  match request env with
  | .err e => .err e
  | .panicked m => .panicked m
  | .pending => .pending
  | .ok (_u, response) =>
    match accountsFromJson response.body with
    | none => .err "error decoding response body"
    | some accs =>
      if accs.accounts.length = 0 then .err "no accounts, something went wrong!"
      else .ok accs

/-- A first page whose items array is present but empty, with no token. -/
def emptyPage : Json :=
  .obj [("locations", .arr [])]

/-- An admin-list body with a single admin (used by the fan-out
scenarios). -/
def adminBody : Json :=
  .obj [("admins", .arr [.obj [("account", .str "accounts/1"),
                               ("admin", .str "a@b"),
                               ("name", .str "locations/1/admins/9"),
                               ("role", .str "OWNER")]])]

/-- The accounts-listing body `{accounts: []}` of the spec's scenario. -/
def accountsEmptyBody : Json :=
  .obj [("accounts", .arr [])]

/-- An accounts-listing body with one well-formed account. -/
def accountsOneBody : Json :=
  .obj [("accounts", .arr [.obj [("accountName", .str "Biz"),
                                 ("name", .str "accounts/1"),
                                 ("type", .str "PERSONAL"),
                                 ("verificationState", .str "VERIFIED"),
                                 ("vettedState", .str "NOT_VETTED")]])]

/-- Three concrete locations for the fan-out scenarios. -/
def locOne : Location := ⟨"locations/1", "A", "s1"⟩

def locTwo : Location := ⟨"locations/2", "B", "s2"⟩

def locThree : Location := ⟨"locations/3", "C", "s3"⟩

/-- A transport environment whose HTTP client construction fails: the one
failure the transport returns as an `Err` value (`?`). -/
def clientFailEnv : TransportEnv :=
  { built_url := some "U", client_ok := false, header_ok := true,
    send_result := none }

/-- A transport environment whose network send fails (e.g. a timeout): hit
by `.expect`, so a panic. -/
def sendFailEnv : TransportEnv :=
  { built_url := some "U", client_ok := true, header_ok := true,
    send_result := none }

/-- A transport environment whose bearer-header construction fails: hit by
`.unwrap()`, so a panic. -/
def badHeaderEnv : TransportEnv :=
  { built_url := some "U", client_ok := true, header_ok := false,
    send_result := none }

theorem chainUrls_length (base : String) (tok : Option String) (bodies : List Json) :
    (chainUrls base tok bodies).length = bodies.length := by
  induction bodies generalizing tok with
  | nil => rfl
  | cons body rest ih => simp [chainUrls, ih]


theorem resource_request_cleanEnv (base : String) (body : Json) (tok : Option Json)
    (htok : tokOk tok = true) :
    resource_request (cleanEnv base body) tok
      = .ok (urlFor base (tok.bind Json.asStr), { status := 200, body := body }) := by
  match tok with
  | none => simp [resource_request, cleanEnv, sendTo, urlFor]
  | some t =>
    obtain ⟨s, hs⟩ := Option.isSome_iff_exists.mp htok
    simp [resource_request, cleanEnv, sendTo, urlFor, hs, Option.bind]

theorem locationsLoop_step_stop (env : TransportEnv) (rest : List TransportEnv)
    (tok : Option Json) (acc : List Location) (urls : List String)
    (u : String) (resp : Response) (pages : List Location)
    (hreq : resource_request env tok = .ok (u, resp))
    (hpage : pageItems resp.body = some pages)
    (hnone : resp.body.get "nextPageToken" = none) :
    locationsLoop (env :: rest) tok acc urls = .ok (⟨acc ++ pages⟩, urls ++ [u]) := by
  obtain ⟨w, hw, hmapw⟩ := Option.bind_eq_some.mp hpage
  obtain ⟨v, hv, harr⟩ := Option.bind_eq_some.mp hw
  simp [locationsLoop, hreq, hv, harr, hmapw, hnone]

theorem locationsLoop_step_go (env : TransportEnv) (rest : List TransportEnv)
    (tok : Option Json) (acc : List Location) (urls : List String)
    (u : String) (resp : Response) (pages : List Location) (t : Json)
    (hreq : resource_request env tok = .ok (u, resp))
    (hpage : pageItems resp.body = some pages)
    (hsome : resp.body.get "nextPageToken" = some t) :
    locationsLoop (env :: rest) tok acc urls
      = locationsLoop rest (some t) (acc ++ pages) (urls ++ [u]) := by
  obtain ⟨w, hw, hmapw⟩ := Option.bind_eq_some.mp hpage
  obtain ⟨v, hv, harr⟩ := Option.bind_eq_some.mp hw
  simp [locationsLoop, hreq, hv, harr, hmapw, hsome]

theorem locationsLoop_chain (base : String) (bodies : List Json)
    (more : List TransportEnv) (tok : Option Json) (acc : List Location)
    (urls : List String) (hchain : tokenChain bodies = true)
    (hwf : pagesParse bodies = true) (htok : tokOk tok = true) :
    locationsLoop (bodies.map (cleanEnv base) ++ more) tok acc urls
      = .ok (⟨acc ++ chainItems bodies⟩,
             urls ++ chainUrls base (tok.bind Json.asStr) bodies) := by
  induction bodies generalizing tok acc urls with
  | nil => exact absurd hchain (by simp [tokenChain])
  | cons body rest ih =>
    have hwf2 := hwf
    simp only [pagesParse, Bool.and_eq_true, Option.isSome_iff_exists] at hwf2
    obtain ⟨⟨pages, hpages⟩, hwfRest⟩ := hwf2
    have hreq := resource_request_cleanEnv base body tok htok
    match hrest : rest with
    | [] =>
      have hnone : (body.get "nextPageToken") = none := by
        have h2 := hchain
        simp only [tokenChain, Option.isNone_iff_eq_none] at h2
        exact h2
      simp only [List.map_cons, List.map_nil, List.cons_append, List.nil_append]
      rw [locationsLoop_step_stop _ _ _ _ _ _ _ _ hreq hpages hnone]
      simp [chainItems, chainUrls, hpages, hnone]
    | b2 :: rest2 =>
      have h2 := hchain
      simp only [tokenChain, Bool.and_eq_true] at h2
      obtain ⟨htokHead, hchainRest⟩ := h2
      obtain ⟨t2, ht2⟩ : ∃ t2, body.get "nextPageToken" = some t2 := by
        match hg : body.get "nextPageToken" with
        | some t2 => exact ⟨t2, rfl⟩
        | none => rw [hg] at htokHead; exact absurd htokHead (by simp)
      rw [ht2] at htokHead
      have htok2 : tokOk (some t2) = true := by simpa [tokOk] using htokHead
      rw [List.map_cons, List.cons_append,
        locationsLoop_step_go _ _ _ _ _ _ _ _ _ hreq hpages ht2,
        ih (some t2) (acc ++ pages) (urls ++ [urlFor base (tok.bind Json.asStr)])
          hchainRest hwfRest htok2]
      simp only [chainItems, chainUrls, hpages, Option.getD_some, tokenOf, ht2,
        Option.some_bind, List.append_assoc, List.singleton_append]

theorem locationsLoop_step_panic (env : TransportEnv) (rest : List TransportEnv)
    (tok : Option Json) (acc : List Location) (urls : List String)
    (u : String) (resp : Response)
    (hreq : resource_request env tok = .ok (u, resp))
    (hmiss : resp.body.get "locations" = none) :
    locationsLoop (env :: rest) tok acc urls
      = .panicked "unwrap on missing locations field" := by
  simp [locationsLoop, hreq, hmiss]

theorem locationsLoop_all_tokens (base : String) (bodies : List Json)
    (tok : Option Json) (acc : List Location) (urls : List String)
    (hall : allHaveTokens bodies = true) (hwf : pagesParse bodies = true)
    (htok : tokOk tok = true) :
    locationsLoop (bodies.map (cleanEnv base)) tok acc urls = .pending := by
  induction bodies generalizing tok acc urls with
  | nil => simp [locationsLoop]
  | cons body rest ih =>
    have hwf2 := hwf
    simp only [pagesParse, Bool.and_eq_true, Option.isSome_iff_exists] at hwf2
    obtain ⟨⟨pages, hpages⟩, hwfRest⟩ := hwf2
    have hall2 := hall
    simp only [allHaveTokens, Bool.and_eq_true] at hall2
    obtain ⟨htokHead, hallRest⟩ := hall2
    obtain ⟨t2, ht2⟩ : ∃ t2, body.get "nextPageToken" = some t2 := by
      match hg : body.get "nextPageToken" with
      | some t2 => exact ⟨t2, rfl⟩
      | none => rw [hg] at htokHead; exact absurd htokHead (by simp)
    rw [ht2] at htokHead
    have hreq := resource_request_cleanEnv base body tok htok
    rw [List.map_cons,
      locationsLoop_step_go _ _ _ _ _ _ _ _ _ hreq hpages ht2]
    exact ih (some t2) (acc ++ pages)
      (urls ++ [urlFor base (tok.bind Json.asStr)]) hallRest hwfRest
      (by simpa [tokOk] using htokHead)

theorem locationsLoop_skip (base : String) (good : List Json)
    (rest : List TransportEnv) (tok : Option Json) (acc : List Location)
    (urls : List String) (hall : allHaveTokens good = true)
    (hwf : pagesParse good = true) (htok : tokOk tok = true) :
    ∃ tok2 acc2 urls2, tokOk tok2 = true ∧
      locationsLoop (good.map (cleanEnv base) ++ rest) tok acc urls
        = locationsLoop rest tok2 acc2 urls2 := by
  induction good generalizing tok acc urls with
  | nil => exact ⟨tok, acc, urls, htok, by simp⟩
  | cons body g ih =>
    have hwf2 := hwf
    simp only [pagesParse, Bool.and_eq_true, Option.isSome_iff_exists] at hwf2
    obtain ⟨⟨pages, hpages⟩, hwfRest⟩ := hwf2
    have hall2 := hall
    simp only [allHaveTokens, Bool.and_eq_true] at hall2
    obtain ⟨htokHead, hallRest⟩ := hall2
    obtain ⟨t2, ht2⟩ : ∃ t2, body.get "nextPageToken" = some t2 := by
      match hg : body.get "nextPageToken" with
      | some t2 => exact ⟨t2, rfl⟩
      | none => rw [hg] at htokHead; exact absurd htokHead (by simp)
    rw [ht2] at htokHead
    have hreq := resource_request_cleanEnv base body tok htok
    rw [List.map_cons, List.cons_append,
      locationsLoop_step_go _ _ _ _ _ _ _ _ _ hreq hpages ht2]
    exact ih (some t2) (acc ++ pages)
      (urls ++ [urlFor base (tok.bind Json.asStr)]) hallRest hwfRest
      (by simpa [tokOk] using htokHead)

/-- C1: over a finite token chain of N page responses (each one before the
last carrying a string `nextPageToken`, the last carrying none, every page
well-formed), `get_locations` — and `get_locations_details`, which runs the
identical loop — returns the concatenation of all N pages' items, in page
order and within each page in response order, and issues exactly N
requests. -/
theorem get_locations_token_chain (base : String) (read_mask : List String)
    (bodies : List Json) (hchain : tokenChain bodies = true)
    (hwf : pagesParse bodies = true) :
    get_locations (bodies.map (cleanEnv base))
        = .ok (⟨chainItems bodies⟩, chainUrls base none bodies)
    ∧ get_locations_details read_mask (bodies.map (cleanEnv base))
        = .ok (⟨chainItems bodies⟩, chainUrls base none bodies)
    ∧ (chainUrls base none bodies).length = bodies.length := by
  have h := locationsLoop_chain base bodies [] none [] [] hchain hwf rfl
  simp only [List.append_nil, List.nil_append, Option.none_bind] at h
  exact ⟨h, h, chainUrls_length base none bodies⟩

/-- Witness for C1: the spec's two-page scenario — pages `[a, b]` with token
`t1` then `[c]` with no token — yields the three items in order and two
requests, the second URL carrying `pageToken=t1`. -/
theorem get_locations_token_chain_witness :
    tokenChain [pageOne, pageTwo] = true
    ∧ pagesParse [pageOne, pageTwo] = true
    ∧ (get_locations ([pageOne, pageTwo].map (cleanEnv "https://api/locations"))
        = .ok (⟨chainItems [pageOne, pageTwo]⟩,
               chainUrls "https://api/locations" none [pageOne, pageTwo])
      ∧ get_locations_details ["title"]
          ([pageOne, pageTwo].map (cleanEnv "https://api/locations"))
        = .ok (⟨chainItems [pageOne, pageTwo]⟩,
               chainUrls "https://api/locations" none [pageOne, pageTwo])
      ∧ (chainUrls "https://api/locations" none [pageOne, pageTwo]).length
          = [pageOne, pageTwo].length) :=
  ⟨by decide, by decide,
   get_locations_token_chain "https://api/locations" ["title"]
     [pageOne, pageTwo] (by decide) (by decide)⟩

/-- The spec's scenario evaluated outright: token chain
`[a, b | t1] , [c]` gives result `[a, b, c]`, two requests, and the second
request's URL contains `pageToken=t1`. -/
theorem scenario_two_pages :
    get_locations ([pageOne, pageTwo].map (cleanEnv "B"))
      = .ok (⟨[⟨"locations/1", "A", "s1"⟩, ⟨"locations/2", "B", "s2"⟩,
               ⟨"locations/3", "C", "s3"⟩]⟩,
             ["B", "B&pageToken=t1"]) := by decide

theorem chainUrls_chain (base : String) (tok : Option String)
    (bodies : List Json) (hchain : tokenChain bodies = true) :
    chainUrls base tok bodies
      = urlFor base tok
          :: (initTokens bodies).map (fun s => base ++ "&pageToken=" ++ s) := by
  induction bodies generalizing tok with
  | nil => exact absurd hchain (by simp [tokenChain])
  | cons body rest ih =>
    cases rest with
    | nil => simp [chainUrls, initTokens]
    | cons b2 rest2 =>
      have h2 := hchain
      simp only [tokenChain, Bool.and_eq_true] at h2
      obtain ⟨hh, hrest⟩ := h2
      obtain ⟨s, hs⟩ : ∃ s, tokenOf body = some s := by
        match hg : body.get "nextPageToken" with
        | some t =>
          rw [hg] at hh
          obtain ⟨s, hs⟩ := Option.isSome_iff_exists.mp hh
          exact ⟨s, by simp [tokenOf, hg, hs]⟩
        | none => rw [hg] at hh; exact absurd hh (by simp)
      rw [chainUrls, ih (tokenOf body) hrest]
      simp [initTokens, hs, urlFor]

/-- C4: the page walk terminates on token absence, and only on it: over a
well-formed token chain (possibly followed by further, never-consumed
rounds) the loop ends normally with an `Ok`; when the very first response
carries no `nextPageToken`, exactly one request is issued and that page's
items (possibly empty) are the whole result; and when every response
carries a token the loop consumes all of them and is still running. -/
theorem page_walk_termination (base : String) (bodies : List Json)
    (more : List TransportEnv) (hchain : tokenChain bodies = true)
    (hwf : pagesParse bodies = true) :
    (∃ result, get_locations (bodies.map (cleanEnv base) ++ more) = .ok result)
    ∧ (∀ first : Json, bodies.head? = some first →
        first.get "nextPageToken" = none →
        get_locations (bodies.map (cleanEnv base) ++ more)
          = .ok (⟨(pageItems first).getD []⟩, [base]))
    ∧ (∀ bs : List Json, allHaveTokens bs = true → pagesParse bs = true →
        get_locations (bs.map (cleanEnv base)) = RustResult.pending) := by
  have h := locationsLoop_chain base bodies more none [] [] hchain hwf rfl
  simp only [List.nil_append, Option.none_bind] at h
  refine ⟨⟨_, h⟩, ?_, ?_⟩
  · intro first hhead hnone
    cases bodies with
    | nil => simp at hhead
    | cons b rest =>
      have hb : b = first := by simpa using hhead
      subst hb
      cases rest with
      | nil =>
        have hwf2 := hwf
        simp only [pagesParse, Bool.and_eq_true, Option.isSome_iff_exists,
          and_true] at hwf2
        obtain ⟨pages, hpages⟩ := hwf2
        have hreq := resource_request_cleanEnv base b none rfl
        simp only [get_locations, List.map_cons, List.map_nil,
          List.cons_append, List.nil_append]
        rw [locationsLoop_step_stop _ _ _ _ _ _ _ _ hreq hpages hnone]
        simp [hpages, urlFor]
      | cons b2 rest2 => simp [tokenChain, hnone] at hchain
  · intro bs hall hwfbs
    exact locationsLoop_all_tokens base bs none [] [] hall hwfbs rfl

/-- Witness for C4: a single tokenless page followed by an extra modelled
round that is never consumed — one request, its items are the full result;
and a chain in which every response has a token never terminates within the
modelled rounds. -/
theorem page_walk_termination_witness :
    tokenChain [pageTwo] = true ∧ pagesParse [pageTwo] = true
    ∧ ((∃ result,
          get_locations ([pageTwo].map (cleanEnv "B") ++ [cleanEnv "B" pageOne])
            = .ok result)
      ∧ (∀ first : Json, [pageTwo].head? = some first →
          first.get "nextPageToken" = none →
          get_locations ([pageTwo].map (cleanEnv "B") ++ [cleanEnv "B" pageOne])
            = .ok (⟨(pageItems first).getD []⟩, ["B"]))
      ∧ (∀ bs : List Json, allHaveTokens bs = true → pagesParse bs = true →
          get_locations (bs.map (cleanEnv "B")) = RustResult.pending)) :=
  ⟨by decide, by decide,
   page_walk_termination "B" [pageTwo] [cleanEnv "B" pageOne]
     (by decide) (by decide)⟩

/-- C8: over a well-formed token chain, the i-th request's URL is the bare
resource URL for i = 0 and the resource URL with `&pageToken=<token of
response i−1>` appended for every i ≥ 1 — the token parameter appears
exactly on the requests after the first. -/
theorem page_token_urls (base : String) (bodies : List Json)
    (hchain : tokenChain bodies = true) (hwf : pagesParse bodies = true) :
    get_locations (bodies.map (cleanEnv base))
      = .ok (⟨chainItems bodies⟩,
             base :: (initTokens bodies).map
               (fun s => base ++ "&pageToken=" ++ s)) := by
  have h := locationsLoop_chain base bodies [] none [] [] hchain hwf rfl
  simp only [List.append_nil, List.nil_append, Option.none_bind] at h
  rw [get_locations, h, chainUrls_chain base none bodies hchain]
  simp [urlFor]

/-- Witness for C8: in the two-page scenario the first URL is the bare
resource URL and the second is it with `&pageToken=t1` appended. -/
theorem page_token_urls_witness :
    tokenChain [pageOne, pageTwo] = true
    ∧ pagesParse [pageOne, pageTwo] = true
    ∧ get_locations ([pageOne, pageTwo].map (cleanEnv "R"))
        = .ok (⟨chainItems [pageOne, pageTwo]⟩,
               "R" :: (initTokens [pageOne, pageTwo]).map
                 (fun s => "R" ++ "&pageToken=" ++ s)) :=
  ⟨by decide, by decide,
   page_token_urls "R" [pageOne, pageTwo] (by decide) (by decide)⟩

/-- Counterexample to C3 as stated: after one successful page, a page
without a `locations` field makes `get_locations` abort with a panic (the
`unwrap` on the missing field), not return a SchemaViolation-style error
value — the outcome is not an `Err` the caller could receive. -/
theorem missing_items_counterexample :
    get_locations ([pageOne, noItemsBody].map (cleanEnv "B"))
      = .panicked "unwrap on missing locations field"
    ∧ (get_locations ([pageOne, noItemsBody].map (cleanEnv "B"))).isError
        = false := by
  constructor
  · have hreq1 := resource_request_cleanEnv "B" pageOne none rfl
    have hpages1 : pageItems pageOne
        = some [⟨"locations/1", "A", "s1"⟩, ⟨"locations/2", "B", "s2"⟩] := by rfl
    have ht1 : pageOne.get "nextPageToken" = some (Json.str "t1") := by rfl
    have hreq2 := resource_request_cleanEnv "B" noItemsBody
      (some (Json.str "t1")) rfl
    simp only [get_locations, List.map_cons, List.map_nil]
    rw [locationsLoop_step_go _ _ _ _ _ _ _ _ _ hreq1 hpages1 ht1,
      locationsLoop_step_panic _ _ _ _ _ _ _ hreq2 (by rfl)]
  · have hreq1 := resource_request_cleanEnv "B" pageOne none rfl
    have hpages1 : pageItems pageOne
        = some [⟨"locations/1", "A", "s1"⟩, ⟨"locations/2", "B", "s2"⟩] := by rfl
    have ht1 : pageOne.get "nextPageToken" = some (Json.str "t1") := by rfl
    have hreq2 := resource_request_cleanEnv "B" noItemsBody
      (some (Json.str "t1")) rfl
    simp only [get_locations, List.map_cons, List.map_nil]
    rw [locationsLoop_step_go _ _ _ _ _ _ _ _ _ hreq1 hpages1 ht1,
      locationsLoop_step_panic _ _ _ _ _ _ _ hreq2 (by rfl)]
    rfl

/-- C3 amended: when any page response lacks the items (`locations`) field
the page walk aborts by panicking on the `unwrap` — no value, in particular
no partial collection, is returned to the caller, however many pages
succeeded before — rather than returning a SchemaViolation error value; and
a present-but-empty items array is not an error: it is a legitimately empty
page, so a tokenless response with `locations: []` yields `Ok` with no
items after exactly one request. -/
theorem missing_items_panics (base : String) (good : List Json) (bad : Json)
    (more : List TransportEnv) (hall : allHaveTokens good = true)
    (hwf : pagesParse good = true) (hmiss : bad.get "locations" = none) :
    get_locations ((good ++ [bad]).map (cleanEnv base) ++ more)
      = .panicked "unwrap on missing locations field"
    ∧ (∀ (b : Json) (rest : List TransportEnv),
        b.get "locations" = some (Json.arr []) →
        b.get "nextPageToken" = none →
        get_locations (cleanEnv base b :: rest) = .ok (⟨[]⟩, [base])) := by
  constructor
  · obtain ⟨tok2, acc2, urls2, htok2, hskip⟩ :=
      locationsLoop_skip base good (cleanEnv base bad :: more) none [] []
        hall hwf rfl
    have hreq := resource_request_cleanEnv base bad tok2 htok2
    rw [get_locations, List.map_append, List.map_cons, List.map_nil,
      List.append_assoc, List.cons_append, List.nil_append, hskip,
      locationsLoop_step_panic _ _ _ _ _ _ _ hreq hmiss]
  · intro b rest hempty hnone
    have hreq := resource_request_cleanEnv base b none rfl
    have hpages : pageItems b = some [] := by
      simp [pageItems, hempty, Json.asArray, mapLocations]
    rw [get_locations,
      locationsLoop_step_stop _ _ _ _ _ _ _ _ hreq hpages hnone]
    simp [urlFor]

/-- Witness for C3's amended statement: one good page then the
field-less page panics; and an empty first page is an empty success after
one request. -/
theorem missing_items_panics_witness :
    allHaveTokens [pageOne] = true ∧ pagesParse [pageOne] = true
    ∧ get_locations (([pageOne] ++ [noItemsBody]).map (cleanEnv "B") ++ [])
        = .panicked "unwrap on missing locations field"
    ∧ get_locations (cleanEnv "B" emptyPage :: []) = .ok (⟨[]⟩, ["B"]) :=
  ⟨by decide, by decide,
   (missing_items_panics "B" [pageOne] noItemsBody [] (by decide) (by decide)
     (by rfl)).1,
   (missing_items_panics "B" [pageOne] noItemsBody [] (by decide) (by decide)
     (by rfl)).2 emptyPage [] (by rfl) (by rfl)⟩

theorem filterMap_toOk_map_ok (rs : List PageAdmins) :
    (rs.map RustResult.ok).filterMap RustResult.toOk = rs := by
  induction rs with
  | nil => rfl
  | cons a t ih => simp [RustResult.toOk, ih]

theorem collectAdmins_ok_of_all (l : List (RustResult PageAdmins))
    (h : ∀ r ∈ l, ∃ a, r = RustResult.ok a) :
    collectAdmins l = .ok (l.filterMap RustResult.toOk) := by
  induction l with
  | nil => rfl
  | cons r rest ih =>
    obtain ⟨a, ha⟩ := h r (by simp)
    subst ha
    have ih2 := ih (fun r hr => h r (by simp [hr]))
    simp [collectAdmins, ih2, RustResult.toOk]

theorem collectAdmins_first_err (oks : List PageAdmins) (e : String)
    (rest : List (RustResult PageAdmins)) :
    collectAdmins (oks.map RustResult.ok ++ RustResult.err e :: rest)
      = .err e := by
  induction oks with
  | nil => rfl
  | cons a t ih => simp [collectAdmins, ih]

/-- C5: when every one of the K fan-out sub-queries succeeds, `admins`
returns `Ok` with exactly K results — a permutation of the per-request
results, so one result per request with no duplicates and no omissions —
for every completion order of the concurrent sub-queries. -/
theorem admins_all_success (requests completion : List (TransportEnv × Location))
    (results : List PageAdmins)
    (hperm : completion.Perm requests)
    (hok : requests.map (fun p => admin p.1 p.2) = results.map RustResult.ok) :
    ∃ out : List PageAdmins,
      admins completion = .ok out ∧ out.Perm results
        ∧ out.length = requests.length := by
  have hperm2 : (completion.map (fun p => admin p.1 p.2)).Perm
      (results.map RustResult.ok) := by
    rw [← hok]; exact hperm.map _
  have hall : ∀ r ∈ completion.map (fun p => admin p.1 p.2),
      ∃ a, r = RustResult.ok a := by
    intro r hr
    have hr2 := hperm2.mem_iff.mp hr
    simp only [List.mem_map] at hr2
    obtain ⟨a, _, ha⟩ := hr2
    exact ⟨a, ha.symm⟩
  refine ⟨_, by rw [admins]; exact collectAdmins_ok_of_all _ hall, ?_, ?_⟩
  · have hp := hperm2.filterMap RustResult.toOk
    rwa [filterMap_toOk_map_ok] at hp
  · have hp := hperm2.filterMap RustResult.toOk
    rw [filterMap_toOk_map_ok] at hp
    have hlen1 := hp.length_eq
    have hlen2 := congrArg List.length hok
    simp only [List.length_map] at hlen2
    rw [hlen1, ← hlen2]

/-- Witness for C5: two sub-queries, both succeeding, completing in the
reverse of request order: two results, a permutation of the per-request
ones. -/
theorem admins_all_success_witness :
    [(cleanEnv "A2" adminBody, locTwo), (cleanEnv "A1" adminBody, locOne)].map
        (fun p => admin p.1 p.2)
      = [⟨"locations/2", "B", "s2", 1⟩,
         ⟨"locations/1", "A", "s1", 1⟩].map RustResult.ok
    ∧ ∃ out : List PageAdmins,
        admins [(cleanEnv "A1" adminBody, locOne), (cleanEnv "A2" adminBody, locTwo)]
          = .ok out
        ∧ out.Perm [⟨"locations/2", "B", "s2", 1⟩, ⟨"locations/1", "A", "s1", 1⟩]
        ∧ out.length
            = [(cleanEnv "A2" adminBody, locTwo),
               (cleanEnv "A1" adminBody, locOne)].length :=
  ⟨by decide,
   admins_all_success
     [(cleanEnv "A2" adminBody, locTwo), (cleanEnv "A1" adminBody, locOne)]
     [(cleanEnv "A1" adminBody, locOne), (cleanEnv "A2" adminBody, locTwo)]
     [⟨"locations/2", "B", "s2", 1⟩, ⟨"locations/1", "A", "s1", 1⟩]
     (List.Perm.swap _ _ _) (by decide)⟩

/-- C2: when the sub-query outcomes in completion order are some successes
followed by the first failure, `admins` returns exactly that first failure
— whatever the outcomes after it would have been, they are never examined —
and never returns an `Ok`, so no partial list of the other sub-queries'
successes is observable. -/
theorem admins_first_failure (completion : List (TransportEnv × Location))
    (oks : List PageAdmins) (e : String) (rest : List (RustResult PageAdmins))
    (hsplit : completion.map (fun p => admin p.1 p.2)
        = oks.map RustResult.ok ++ RustResult.err e :: rest) :
    admins completion = .err e
    ∧ ∀ out : List PageAdmins, admins completion ≠ .ok out := by
  have h : admins completion = .err e := by
    rw [admins, hsplit, collectAdmins_first_err]
  refine ⟨h, fun out hcontra => ?_⟩
  rw [h] at hcontra
  exact RustResult.noConfusion hcontra

/-- Witness for C2: three sub-queries completing as success, failure (the
HTTP-client construction error), success — the aggregate is that single
failure and is not an `Ok`. -/
theorem admins_first_failure_witness :
    [(cleanEnv "A1" adminBody, locOne), (clientFailEnv, locTwo),
     (cleanEnv "A3" adminBody, locThree)].map (fun p => admin p.1 p.2)
      = [(⟨"locations/1", "A", "s1", 1⟩ : PageAdmins)].map RustResult.ok
          ++ RustResult.err "builder error"
            :: [RustResult.ok ⟨"locations/3", "C", "s3", 1⟩]
    ∧ (admins [(cleanEnv "A1" adminBody, locOne), (clientFailEnv, locTwo),
               (cleanEnv "A3" adminBody, locThree)] = .err "builder error"
      ∧ ∀ out : List PageAdmins,
          admins [(cleanEnv "A1" adminBody, locOne), (clientFailEnv, locTwo),
                  (cleanEnv "A3" adminBody, locThree)] ≠ .ok out) :=
  ⟨by decide,
   admins_first_failure
     [(cleanEnv "A1" adminBody, locOne), (clientFailEnv, locTwo),
      (cleanEnv "A3" adminBody, locThree)]
     [⟨"locations/1", "A", "s1", 1⟩] "builder error"
     [RustResult.ok ⟨"locations/3", "C", "s3", 1⟩] (by decide)⟩

/-- C6: when the accounts response parses to an accounts array of length
zero, `accounts` fails with the application-level error
`"no accounts, something went wrong!"` rather than succeeding with an empty
list; equivalently, every `Ok` result of `accounts` holds at least one
account. -/
theorem accounts_empty_is_error (env : TransportEnv) (u : String)
    (resp : Response) (hreq : request env = .ok (u, resp))
    (hparse : accountsFromJson resp.body = some ⟨[]⟩) :
    accounts env = .err "no accounts, something went wrong!"
    ∧ ∀ (env2 : TransportEnv) (accs : Accounts),
        accounts env2 = .ok accs → 1 ≤ accs.accounts.length := by
  constructor
  · simp [accounts, hreq, hparse]
  · intro env2 accs h
    cases hr : request env2 with
    | err e => simp [accounts, hr] at h
    | panicked m => simp [accounts, hr] at h
    | pending => simp [accounts, hr] at h
    | ok p =>
      cases hp : accountsFromJson p.2.body with
      | none =>
        simp only [accounts] at h
        rw [hr] at h
        simp only at h
        rw [hp] at h
        exact RustResult.noConfusion h
      | some accs2 =>
        simp only [accounts, hr, hp] at h
        by_cases hz : accs2.accounts.length = 0
        · rw [if_pos hz] at h
          exact RustResult.noConfusion h
        · rw [if_neg hz] at h
          injection h with h2
          subst h2
          omega

/-- Witness for C6: the body `accounts: []` fails with the error, and a
one-account body succeeds with a list of length one. -/
theorem accounts_empty_is_error_witness :
    accounts (cleanEnv "U" accountsEmptyBody)
        = .err "no accounts, something went wrong!"
    ∧ 1 ≤ (Accounts.mk [⟨"Biz", "accounts/1", "PERSONAL", "VERIFIED",
        "NOT_VETTED", none, none, none⟩]).accounts.length :=
  ⟨(accounts_empty_is_error (cleanEnv "U" accountsEmptyBody) "U"
      { status := 200, body := accountsEmptyBody } (by rfl) (by rfl)).1,
   (accounts_empty_is_error (cleanEnv "U" accountsEmptyBody) "U"
      { status := 200, body := accountsEmptyBody } (by rfl) (by rfl)).2
     (cleanEnv "U" accountsOneBody)
     (Accounts.mk [⟨"Biz", "accounts/1", "PERSONAL", "VERIFIED", "NOT_VETTED",
        none, none, none⟩]) (by decide)⟩

/-- Counterexample to C7 as stated: a request that cannot be sent (network
failure/timeout: `send_result = none`) does not produce a TransportError
result value — `.send().await.expect(..)` panics; likewise an invalid
header value panics on the `.unwrap()`.  Neither outcome is a returned
`Err`. -/
theorem transport_failure_counterexample :
    request sendFailEnv = .panicked "Error with request"
    ∧ (request sendFailEnv).isError = false
    ∧ resource_request sendFailEnv none = .panicked "Error with request"
    ∧ request badHeaderEnv = .panicked "invalid header value"
    ∧ (request badHeaderEnv).isError = false :=
  ⟨rfl, rfl, rfl, rfl, rfl⟩

/-- C7 amended: the transport functions surface every received HTTP
response — whatever its status, which is never inspected — as a successful
value; of the failure modes, only HTTP-client construction failure is
returned as an error value (`?`), while an invalid header value and a send
failure abort by panic instead of returning an error. -/
theorem transport_surfaces_responses (env : TransportEnv) (u : String)
    (resp : Response) (payload : Location)
    (hurl : env.built_url = some u) (hclient : env.client_ok = true)
    (hheader : env.header_ok = true) (hsend : env.send_result = some resp) :
    request env = .ok (u, resp)
    ∧ resource_request env none = .ok (u, resp)
    ∧ update_request env payload = .ok (u ++ "?updateMask=title", resp)
    ∧ (∀ env2 : TransportEnv, env2.built_url.isSome = true →
        env2.client_ok = false → request env2 = .err "builder error")
    ∧ (∀ env2 : TransportEnv, env2.built_url.isSome = true →
        env2.client_ok = true → env2.header_ok = false →
        request env2 = .panicked "invalid header value")
    ∧ (∀ env2 : TransportEnv, env2.built_url.isSome = true →
        env2.client_ok = true → env2.header_ok = true →
        env2.send_result = none →
        request env2 = .panicked "Error with request") := by
  refine ⟨?_, ?_, ?_, ?_, ?_, ?_⟩
  · simp [request, sendTo, hurl, hclient, hheader, hsend]
  · simp [resource_request, sendTo, hurl, hclient, hheader, hsend]
  · simp [update_request, sendTo, hurl, hclient, hheader, hsend]
  · intro env2 hb hc
    obtain ⟨u2, hu2⟩ := Option.isSome_iff_exists.mp hb
    simp [request, sendTo, hu2, hc]
  · intro env2 hb hc hh
    obtain ⟨u2, hu2⟩ := Option.isSome_iff_exists.mp hb
    simp [request, sendTo, hu2, hc, hh]
  · intro env2 hb hc hh hs
    obtain ⟨u2, hu2⟩ := Option.isSome_iff_exists.mp hb
    simp [request, sendTo, hu2, hc, hh, hs]

/-- Witness for C7's amended statement, at an environment whose response has
the non-2xx status 500: the response is surfaced as a success. -/
theorem transport_surfaces_responses_witness :
    request ({ built_url := some "U", client_ok := true, header_ok := true,
               send_result := some { status := 500, body := Json.null } })
        = .ok ("U", { status := 500, body := Json.null })
    ∧ resource_request
        ({ built_url := some "U", client_ok := true, header_ok := true,
           send_result := some { status := 500, body := Json.null } }) none
        = .ok ("U", { status := 500, body := Json.null })
    ∧ update_request
        ({ built_url := some "U", client_ok := true, header_ok := true,
           send_result := some { status := 500, body := Json.null } }) locOne
        = .ok ("U" ++ "?updateMask=title", { status := 500, body := Json.null })
    ∧ request clientFailEnv = .err "builder error"
    ∧ request badHeaderEnv = .panicked "invalid header value"
    ∧ request sendFailEnv = .panicked "Error with request" :=
  have h := transport_surfaces_responses
    ({ built_url := some "U", client_ok := true, header_ok := true,
       send_result := some { status := 500, body := Json.null } })
    "U" ({ status := 500, body := Json.null }) locOne rfl rfl rfl rfl
  ⟨h.1, h.2.1, h.2.2.1,
   h.2.2.2.1 clientFailEnv rfl rfl,
   h.2.2.2.2.1 badHeaderEnv rfl rfl rfl,
   h.2.2.2.2.2 sendFailEnv rfl rfl rfl rfl⟩

/-- C9: every update (PATCH) request that `update_request` issues goes to
the resource URL with the fixed query string `?updateMask=title` appended —
the mutation's field mask is always exactly the title field. -/
theorem update_mask_is_title (env : TransportEnv) (u : String)
    (resp : Response) (payload : Location)
    (hurl : env.built_url = some u) (hclient : env.client_ok = true)
    (hheader : env.header_ok = true) (hsend : env.send_result = some resp) :
    update_request env payload = .ok (u ++ "?updateMask=title", resp) := by
  simp [update_request, sendTo, hurl, hclient, hheader, hsend]

/-- Witness for C9 at a concrete environment and payload. -/
theorem update_mask_is_title_witness :
    update_request (cleanEnv "https://api/locations/1" pageTwo) locOne
      = .ok ("https://api/locations/1" ++ "?updateMask=title",
             { status := 200, body := pageTwo }) :=
  update_mask_is_title (cleanEnv "https://api/locations/1" pageTwo)
    "https://api/locations/1" { status := 200, body := pageTwo } locOne
    rfl rfl rfl rfl

/-- C10: `resource_request` completes without panicking only for string
continuation tokens: with a string token the URL gets
`&pageToken=<token>` and the request proceeds, while any present non-string
token (here any JSON value with `as_str() = None`) makes the function panic
on the `unwrap` — no error value is returned for that case. -/
theorem resource_request_token_safety (env : TransportEnv) (u : String)
    (s : String) (resp : Response)
    (hurl : env.built_url = some u) (hclient : env.client_ok = true)
    (hheader : env.header_ok = true) (hsend : env.send_result = some resp) :
    resource_request env (some (Json.str s))
        = .ok (u ++ "&pageToken=" ++ s, resp)
    ∧ (∀ (env2 : TransportEnv) (t : Json), env2.built_url.isSome = true →
        t.asStr = none →
        resource_request env2 (some t)
          = .panicked "token as_str unwrap on non-string token")
    ∧ (∀ (env2 : TransportEnv) (t : Json), env2.built_url.isSome = true →
        t.asStr = none →
        (resource_request env2 (some t)).isError = false) := by
  refine ⟨?_, ?_, ?_⟩
  · simp [resource_request, sendTo, hurl, hclient, hheader, hsend, Json.asStr]
  · intro env2 t hb ht
    obtain ⟨u2, hu2⟩ := Option.isSome_iff_exists.mp hb
    simp [resource_request, hu2, ht]
  · intro env2 t hb ht
    obtain ⟨u2, hu2⟩ := Option.isSome_iff_exists.mp hb
    simp [resource_request, hu2, ht, RustResult.isError]

/-- Witness for C10: a string token is appended to the URL; the numeric
token `5` panics and is not an error value. -/
theorem resource_request_token_safety_witness :
    resource_request (cleanEnv "U" pageTwo) (some (Json.str "t1"))
        = .ok ("U" ++ "&pageToken=" ++ "t1", { status := 200, body := pageTwo })
    ∧ resource_request (cleanEnv "U" pageTwo) (some (Json.num 5))
        = .panicked "token as_str unwrap on non-string token"
    ∧ (resource_request (cleanEnv "U" pageTwo) (some (Json.num 5))).isError
        = false :=
  have h := resource_request_token_safety (cleanEnv "U" pageTwo) "U" "t1"
    { status := 200, body := pageTwo } rfl rfl rfl rfl
  ⟨h.1, h.2.1 (cleanEnv "U" pageTwo) (Json.num 5) rfl rfl,
   h.2.2 (cleanEnv "U" pageTwo) (Json.num 5) rfl rfl⟩
